import Mathlib

/-!
# Verification of the calblink core (event selection, color mapping, device control)

A shallow embedding of the calblink program's core, translated from the Go
sources, together with theorems settling the specification claims.

Conventions of the embedding:
* Go `time.Duration` values are natural numbers of nanoseconds.
* Go `float64` minute deltas are modelled as rationals; the threshold
  comparisons performed by the code are exact on every finite float, so the
  comparisons agree with the rational ones.
* Timestamps are kept as the strings the calendar API delivers.  The code
  parses them with Go's `time.Parse (RFC 3339)`, a standard-library function
  outside this repository; the embedding therefore takes the parser as an
  explicit argument `parse : String → Option ℚ` returning the parsed instant
  in minutes, and theorems quantify over it.  `none` models a parse error.
* `log.Fatalf` (process termination) is modelled by `Except Unit`, the
  `.error ()` case; a nil-pointer dereference is modelled by `Option`, the
  `none` case.
-/

namespace Calblink

/-- One channel state of the blink(1) device (Go `blink1.State` from the
go-blink1 library): a color, the LED selector, and fade/duration metadata. -/
structure Blink1State where
  red : Nat := 0
  green : Nat := 0
  blue : Nat := 0
  led : Nat := 0
  fadeTime : Nat := 0
  duration : Nat := 0
  deriving DecidableEq, Repr

/-- `blink1.OffState`: the all-zero (dark) channel state. -/
def OffState : Blink1State := {}

/-- Go `CalendarState` (blinker file): a display state for a calendar event,
two colors, two flash durations (nanoseconds) and the alternation mode. -/
structure CalendarState where
  name : String
  primary : Blink1State := OffState
  secondary : Blink1State := OffState
  primaryFlash : Nat := 0
  secondaryFlash : Nat := 0
  alternate : Bool := false
  deriving DecidableEq, Repr

/-- Go constant `Black`. -/
def Black : CalendarState := { name := "Black", primary := OffState }

/-- Go constant `Green`. -/
def Green : CalendarState :=
  { name := "Green", primary := { green := 255 }, secondary := { green := 255 } }

/-- Go constant `Yellow`. -/
def Yellow : CalendarState :=
  { name := "Yellow", primary := { red := 255, green := 160 },
    secondary := { red := 255, green := 160 } }

/-- Go constant `Red`. -/
def Red : CalendarState :=
  { name := "Red", primary := { red := 255 }, secondary := { red := 255 } }

/-- Go constant `RedFlash` (500 ms flash period, alternate mode). -/
def RedFlash : CalendarState :=
  { name := "Red Flash", primary := { red := 255 }, secondary := OffState,
    primaryFlash := 500000000, alternate := true }

/-- Go constant `FastRedFlash` (125 ms flash period, alternate mode). -/
def FastRedFlash : CalendarState :=
  { name := "Fast Red Flash", primary := { red := 255 }, secondary := OffState,
    primaryFlash := 125000000, alternate := true }

/-- Go constant `BlueFlash` ("Red-Blue Flash", 500 ms, alternate mode). -/
def BlueFlash : CalendarState :=
  { name := "Red-Blue Flash", primary := { blue := 255 }, secondary := { red := 255 },
    primaryFlash := 500000000, alternate := true }

/-- Go constant `Blue`. -/
def Blue : CalendarState :=
  { name := "Blue", primary := { blue := 255 }, secondary := { blue := 255 } }

/-- Go constant `MagentaFlash` (125 ms, alternate mode). -/
def MagentaFlash : CalendarState :=
  { name := "MagentaFlash", primary := { red := 255, blue := 255 }, secondary := OffState,
    primaryFlash := 125000000, alternate := true }

/-- Go `CombineStates` (blinker file): combines two single-event states into
one dual-sided state; side 1 keeps the first state's primary color/flash,
side 2 takes the second state's primary color/flash, `alternate` forced false. -/
def CombineStates (in1 in2 : CalendarState) : CalendarState :=
  { name := in1.name ++ "/" ++ in2.name,
    primary := in1.primary,
    secondary := in2.primary,
    primaryFlash := in1.primaryFlash,
    secondaryFlash := in2.primaryFlash,
    alternate := false }

/-- Go `SwapState` (blinker file): exchanges the two sides' colors and flash
periods; `alternate` forced false. -/
def SwapState (input : CalendarState) : CalendarState :=
  { name := input.name ++ " swapped",
    primary := input.secondary,
    secondary := input.primary,
    primaryFlash := input.secondaryFlash,
    secondaryFlash := input.primaryFlash,
    alternate := false }

/-- Go `blinkStateForDelta` (calendar.go): maps minutes-until-start to a
display state through the fixed threshold table, first match wins. -/
def blinkStateForDelta (delta : ℚ) : CalendarState :=
  if delta < -1 then Blue
  else if delta < 0 then BlueFlash
  else if delta < 2 then FastRedFlash
  else if delta < 5 then RedFlash
  else if delta < 10 then Red
  else if delta < 30 then Yellow
  else if delta < 60 then Green
  else Black

/-- Go `WorkSiteType` (prefs file): Home, Office or Custom. -/
inductive WorkSiteType where
  | home
  | office
  | custom
  deriving DecidableEq, Repr

/-- Go `WorkSite` (prefs file): a working location; equality is full structural
equality, exactly as Go compares the struct when it is used as a map key. -/
structure WorkSite where
  siteType : WorkSiteType
  name : String
  deriving DecidableEq, Repr

/-- One entry of a Google Calendar event's attendee list, restricted to the
fields the code reads (`Self`, `ResponseStatus`). -/
structure Attendee where
  self : Bool
  responseStatus : String
  deriving DecidableEq, Repr

/-- A Google Calendar event, restricted to the fields the core reads:
`Id`, `Summary`, `Start.DateTime` (empty string = all-day event),
`End.DateTime`, `Created`, `EventType`, `Attendees`. -/
structure Event where
  id : String
  summary : String
  start : String
  endTime : String
  created : String
  eventType : String
  attendees : List Attendee
  deriving DecidableEq, Repr

/-- Go `UserPrefs` (prefs file), restricted to the fields the event selector
reads.  `excludes` models the Go `map[string]bool` exclusion set (only `true`
entries are ever inserted), `responseState` the string-typed policy. -/
structure UserPrefs where
  excludes : List String
  excludePrefixes : List String
  responseState : String
  multiEvent : Bool
  workingLocations : List WorkSite
  deriving DecidableEq, Repr

/-- Go `ResponseState.CheckStatus` (prefs file): whether an attendance status
satisfies the policy.  `all` admits anything, `accepted` only "accepted",
`notRejected` anything but "declined"; any other policy string admits nothing. -/
def CheckStatus (state status : String) : Bool :=
  if state = "all" then true
  else if state = "accepted" then status = "accepted"
  else if state = "notRejected" then status ≠ "declined"
  else false

/-- Go `eventHasAcceptableResponse` (calendar.go): the first attendee marked
`Self` decides via `CheckStatus`; an event with no self attendee is admitted. -/
def eventHasAcceptableResponse (item : Event) (responseState : String) : Bool :=
  match item.attendees.find? (fun a => a.self) with
  | some attendee => CheckStatus responseState attendee.responseStatus
  | none => true

/-- Go `eventExcludedByPrefs` (calendar.go): exact-title exclusion or any
excluded prefix match. -/
def eventExcludedByPrefs (item : String) (userPrefs : UserPrefs) : Bool :=
  item ∈ userPrefs.excludes ||
    userPrefs.excludePrefixes.any (fun p => item.startsWith p)

/-- The admission test of the loop in Go `nextEvent` (calendar.go lines
79-81): not all-day, not excluded, acceptable response. -/
def eventAdmissible (userPrefs : UserPrefs) (i : Event) : Bool :=
  i.start ≠ "" && !eventExcludedByPrefs i.summary userPrefs &&
    eventHasAcceptableResponse i userPrefs.responseState

/-- The admission loop of Go `nextEvent` (calendar.go lines 78-87): admit in
list order, breaking once two events are admitted, or one when `multiEvent`
is false. -/
def nextEventLoop (userPrefs : UserPrefs) : List Event → List Event → List Event
  | [], events => events
  | i :: rest, events =>
    if eventAdmissible userPrefs i then
      let events' := events ++ [i]
      if events'.length == 2 || (events'.length == 1 && !userPrefs.multiEvent) then
        events'
      else nextEventLoop userPrefs rest events'
    else nextEventLoop userPrefs rest events

/-- Go `nextEvent` (calendar.go): if a working-location filter is configured
and no polled calendar's active work site matches it, return no events;
otherwise run the admission loop. -/
def nextEvent (items : List Event) (locations : List WorkSite)
    (userPrefs : UserPrefs) : List Event :=
  if userPrefs.workingLocations.length > 0 &&
      !userPrefs.workingLocations.any (fun p => locations.contains p) then
    []
  else
    nextEventLoop userPrefs items []

/-- The body of the `i > 0` arm of the loop in Go `blinkStateForEvent`
(calendar.go lines 121-131): combine with the second event's state unless it
is Black, then swap sides when the designated priority side is the
non-flashing one. -/
def combineStep (blinkState secondary : CalendarState) (priority : Int) :
    CalendarState :=
  let b1 := if secondary ≠ Black then CombineStates blinkState secondary else blinkState
  if (priority = 1 ∧ b1.primaryFlash = 0 ∧ b1.secondaryFlash > 0) ∨
      (priority = 2 ∧ b1.primaryFlash > 0 ∧ b1.secondaryFlash = 0) then
    SwapState b1
  else b1

/-- The loop of Go `blinkStateForEvent` (calendar.go lines 115-139): the Go
code computes `delta = -time.Since(startTime).Minutes()`, i.e. the parsed
start instant minus `now`, in minutes.  On a parse error the Go code prints
the error and `break`s out of the loop, returning the state accumulated so
far. -/
def blinkStateForEventAux (parse : String → Option ℚ) (now : ℚ) (priority : Int) :
    List Event → Nat → CalendarState → CalendarState
  | [], _, blinkState => blinkState
  | event :: rest, i, blinkState =>
    match parse event.start with
    | none => blinkState
    | some startTime =>
      let delta := startTime - now
      let b' := if i = 0 then blinkStateForDelta delta
                else combineStep blinkState (blinkStateForDelta delta) priority
      blinkStateForEventAux parse now priority rest (i + 1) b'

/-- Go `blinkStateForEvent` (calendar.go): fold the admitted events into one
display state, starting from Black. -/
def blinkStateForEvent (parse : String → Option ℚ) (now : ℚ)
    (next : List Event) (priority : Int) : CalendarState :=
  blinkStateForEventAux parse now priority next 0 Black

/-- A concrete timestamp parser used only to instantiate counterexamples and
witnesses: reads the start string as a decimal number of minutes.  (The real
code parses RFC 3339 strings through Go's standard library, which is outside
this repository; all theorems quantify over the parser.) -/
def toyParse (s : String) : Option ℚ :=
  if s = "3" then some 3
  else if s = "8" then some 8
  else if s = "20" then some 20
  else if s = "60" then some 60
  else if s = "110" then some 110
  else if s = "130" then some 130
  else if s = "0" then some 0
  else none

/-- The de-duplicating filter of Go `fetchEvents` (calendar.go lines 189-202):
walk the pooled list, skipping events whose id was already `seen` and events
with an empty start date-time (all-day events); `seen` records only the kept
ids. -/
def mergeDedup : List Event → List String → List Event
  | [], _ => []
  | event :: rest, seen =>
    if event.id ∈ seen then mergeDedup rest seen
    else if event.start = "" then mergeDedup rest seen
    else event :: mergeDedup rest (event.id :: seen)

/-- Plain de-duplication by id, first occurrence kept — the wording of the
spec's merge description, used to characterize `mergeDedup`. -/
def dedupById : List Event → List String → List Event
  | [], _ => []
  | event :: rest, seen =>
    if event.id ∈ seen then dedupById rest seen
    else event :: dedupById rest (event.id :: seen)

/-- The sort key of the merge: the parsed start instant.  In the sorted
branch every event is known to parse, so the default is never consulted. -/
def startKey (parse : String → Option ℚ) (event : Event) : ℚ :=
  (parse event.start).getD 0

/-- Stable insertion into a list: the new element is placed before the first
element of greater-or-equal key, so that a later-inserted (i.e. originally
earlier) element precedes equal keys. -/
def insertSorted (parse : String → Option ℚ) (event : Event) :
    List Event → List Event
  | [] => [event]
  | x :: xs =>
    if startKey parse event ≤ startKey parse x then event :: x :: xs
    else x :: insertSorted parse event xs

/-- The stable ascending sort by parsed start time performed by
`sort.SliceStable` in Go `fetchEvents` (calendar.go lines 203-214).  The Go
standard library guarantees a stable sort; a stable sort's output is uniquely
determined by the comparator and the input order, so this structurally
recursive insertion sort is an exact model of it. -/
def sortByStart (parse : String → Option ℚ) : List Event → List Event
  | [] => []
  | event :: rest => insertSorted parse event (sortByStart parse rest)

/-- The multi-calendar merge of Go `fetchEvents` (calendar.go lines 187-216):
de-duplicate and drop all-day events, then stably sort by parsed start time.
The comparator calls `log.Fatalf` on an event whose start fails to parse;
`sort.SliceStable` compares every element of a list of two or more elements
at least once (its insertion-sort blocks compare each element with its
predecessor), so the sort is fatal exactly when the filtered list has at
least two elements and contains an unparseable start. -/
def mergeFilter (parse : String → Option ℚ) (events : List Event) :
    Except Unit (List Event) :=
  let filtered := mergeDedup events []
  if filtered.all (fun e => (parse e.start).isSome) then
    .ok (sortByStart parse filtered)
  else if 2 ≤ filtered.length then .error ()
  else .ok filtered

/-- The selection pipeline of Go `fetchEvents` (calendar.go lines 187-217):
the merge filter runs only when more than one calendar is polled, and the
result is handed to `nextEvent`. -/
def fetchEventsSelect (parse : String → Option ℚ) (numCalendars : Nat)
    (events : List Event) (locations : List WorkSite) (userPrefs : UserPrefs) :
    Except Unit (List Event) :=
  if 1 < numCalendars then
    (mergeFilter parse events).map (fun l => nextEvent l locations userPrefs)
  else
    .ok (nextEvent events locations userPrefs)

/-- Overwrite an event's type tag, leaving every other field unchanged; used
to state that the selection pipeline never consults the event type. -/
def setEventType (t : String) (e : Event) : Event :=
  { e with eventType := t }

/-- Go `BlinkerState` (blinker file), restricted to the fields the retry
protocol reads: whether `device` is non-nil, the consecutive-failure counter
and its ceiling.  The channel is modelled separately by the pattern runner. -/
structure Blinker where
  deviceOpen : Bool
  failures : Nat
  maxFailures : Nat
  deriving DecidableEq, Repr

/-- Go `BlinkerState.reinitialize` (blinker file).  `openOk` is the outcome
of `blink1.OpenNextDevice()` (a device-library call).  On failure the counter
is incremented and, when it exceeds the ceiling, `log.Fatalf` terminates the
process (`.error ()`); the nil device handle is stored.  On success the
counter resets to zero and the fresh handle is stored.  The returned `Bool`
is true when the Go function returns a non-nil error. -/
def reinit (openOk : Bool) (blinker : Blinker) :
    Except Unit (Blinker × Bool) :=
  if openOk then
    .ok ({ blinker with deviceOpen := true, failures := 0 }, false)
  else if blinker.maxFailures < blinker.failures + 1 then
    .error ()
  else
    .ok ({ blinker with deviceOpen := false, failures := blinker.failures + 1 }, true)

/-- Go `NewBlinkerState` (blinker file): a fresh blinker (nil device, zero
failures) immediately reinitd once; the returned error is discarded. -/
def NewBlinkerState (maxFailures : Nat) (openOk : Bool) : Except Unit Blinker :=
  (reinit openOk
    { deviceOpen := false, failures := 0, maxFailures := maxFailures }).map Prod.fst

/-- `device.SetState` as seen by the embedding: writing through a nil handle
is a nil-pointer dereference (`none`); otherwise `writeOk` is the outcome of
the hardware write. -/
def devWrite (blinker : Blinker) (writeOk : Bool) : Option Bool :=
  if blinker.deviceOpen then some writeOk else none

/-- The write-and-retry tail of Go `BlinkerState.setState` (blinker file,
after the optional leading reinitialization): attempt the write; on failure
reinit once and, if that succeeded, retry the write exactly once,
returning its outcome; a successful first write resets the failure counter. -/
def setStateWrite (writeOk1 openOk2 writeOk2 : Bool) (blinker : Blinker) :
    Option (Except Unit (Blinker × Bool)) :=
  match devWrite blinker writeOk1 with
  | none => none
  | some true => some (.ok ({ blinker with failures := 0 }, false))
  | some false =>
    match reinit openOk2 blinker with
    | .error () => some (.error ())
    | .ok (b2, true) => some (.ok (b2, true))
    | .ok (b2, false) =>
      match devWrite b2 writeOk2 with
      | none => none
      | some ok => some (.ok (b2, !ok))

/-- Go `BlinkerState.setState` (blinker file): when the failure counter is
positive, reinit first and give up (returning the error) if that
fails; then write with one reinit-and-retry cycle.  `openOk1` is the
outcome of the leading reinitialization's device open, `writeOk1` of the
first write, `openOk2` of the mid-write reinitialization, `writeOk2` of the
retried write. -/
def setState (openOk1 writeOk1 openOk2 writeOk2 : Bool) (blinker : Blinker) :
    Option (Except Unit (Blinker × Bool)) :=
  if blinker.failures > 0 then
    match reinit openOk1 blinker with
    | .error () => some (.error ())
    | .ok (b1, true) => some (.ok (b1, true))
    | .ok (b1, false) => setStateWrite writeOk1 openOk2 writeOk2 b1
  else
    setStateWrite writeOk1 openOk2 writeOk2 blinker

/-- `k` consecutive `reinit` calls whose device opens all fail — the
scenario of repeated failed polls of `blink1.OpenNextDevice`. -/
def iterateReinitFail : Nat → Blinker → Except Unit Blinker
  | 0, blinker => .ok blinker
  | k + 1, blinker =>
    match reinit false blinker with
    | .error () => .error ()
    | .ok (b', _) => iterateReinitFail k b'

/-- The controller invariant: a zero failure counter means the last open
succeeded, so the device handle is non-nil. -/
def deviceInvariant (blinker : Blinker) : Prop :=
  blinker.failures = 0 → blinker.deviceOpen = true

/-- The local state of Go `BlinkerState.patternRunner` (blinker file): the
currently applied display state, the failing flag, whether the flash timer
channel is armed and with what delay (nanoseconds), and the alternation
phase. -/
structure RunnerState where
  current : CalendarState
  failing : Bool
  tickerArmed : Bool
  tickerDelay : Nat
  stateFlip : Bool
  deriving DecidableEq, Repr

/-- The new-request arm of the `select` in Go `BlinkerState.patternRunner`
(blinker file lines 1002-1023): a request equal to the current state with the
controller not failing is ignored outright; otherwise the request is adopted,
and either the flash timer is armed at one millisecond (when a flash period
is positive) or the timer is killed and the two sides are written once.
`err1`/`err2` are the outcomes of the two `setState` device calls of the
non-flashing branch; the returned list holds the channel states written to
the hardware by this step. -/
def runnerHandleRequest (err1 err2 : Bool) (s : RunnerState)
    (newState : CalendarState) : RunnerState × List Blink1State :=
  if newState ≠ s.current ∨ s.failing then
    if newState.primaryFlash > 0 ∨ newState.secondaryFlash > 0 then
      ({ s with current := newState, tickerArmed := true, tickerDelay := 1000000 }, [])
    else
      let state1 := { newState.primary with led := 1 }
      let state2 := { newState.secondary with led := 2 }
      ({ s with current := newState, failing := err1 || err2, tickerArmed := false },
        [state1, state2])
  else
    (s, [])

/-- C1: the delta-to-color mapper realizes exactly the eight fixed bands:
delta < -1 ↦ Blue, [-1,0) ↦ Blue/Red alternating flash, [0,2) ↦ fast red
flash, [2,5) ↦ red flash, [5,10) ↦ solid Red, [10,30) ↦ solid Yellow,
[30,60) ↦ solid Green, and delta ≥ 60 ↦ Off/Black; the bands cover every
rational delta with no gaps or overlaps at the boundaries. -/
theorem C1_blinkStateForDelta_bands (delta : ℚ) :
    (delta < -1 → blinkStateForDelta delta = Blue) ∧
    (-1 ≤ delta → delta < 0 → blinkStateForDelta delta = BlueFlash) ∧
    (0 ≤ delta → delta < 2 → blinkStateForDelta delta = FastRedFlash) ∧
    (2 ≤ delta → delta < 5 → blinkStateForDelta delta = RedFlash) ∧
    (5 ≤ delta → delta < 10 → blinkStateForDelta delta = Red) ∧
    (10 ≤ delta → delta < 30 → blinkStateForDelta delta = Yellow) ∧
    (30 ≤ delta → delta < 60 → blinkStateForDelta delta = Green) ∧
    (60 ≤ delta → blinkStateForDelta delta = Black) := by
  unfold blinkStateForDelta
  refine ⟨?_, ?_, ?_, ?_, ?_, ?_, ?_, ?_⟩ <;> intros <;> split_ifs <;>
    first | rfl | linarith

/-- Closed witness for C1 at delta = 3 (band [2,5) gives the red flash). -/
theorem C1_blinkStateForDelta_bands_witness :
    (2 : ℚ) ≤ 3 ∧ (3 : ℚ) < 5 ∧ blinkStateForDelta 3 = RedFlash :=
  ⟨by norm_num, by norm_num,
    (C1_blinkStateForDelta_bands 3).2.2.2.1 (by norm_num) (by norm_num)⟩

/-- The admission loop admits, in order, the first `k` events passing the
admission test, where `k` is 2 with `multiEvent` and 1 without. -/
theorem nextEventLoop_eq (userPrefs : UserPrefs) (items : List Event) :
    ∀ acc : List Event,
      acc.length < (if userPrefs.multiEvent then 2 else 1) →
      nextEventLoop userPrefs items acc =
        acc ++ (items.filter (eventAdmissible userPrefs)).take
          ((if userPrefs.multiEvent then 2 else 1) - acc.length) := by
  induction items with
  | nil => intro acc _; simp [nextEventLoop]
  | cons i rest ih =>
    intro acc hlen
    rw [nextEventLoop]
    by_cases hadm : eventAdmissible userPrefs i
    · simp only [hadm, if_true, List.filter_cons]
      cases hm : userPrefs.multiEvent with
      | false =>
        have hnil : acc = [] := by
          rw [hm] at hlen
          simpa [List.length_eq_zero] using hlen
        subst hnil
        simp [hm]
      | true =>
        rw [hm] at hlen
        simp only [hm]
        have hlen2 : acc.length = 0 ∨ acc.length = 1 := by
          simp only [if_true] at hlen; omega
        rcases hlen2 with h0 | h1
        · have hnil : acc = [] := List.length_eq_zero.mp h0
          subst hnil
          have : ¬((([] : List Event) ++ [i]).length == 2 ||
              ((([] : List Event) ++ [i]).length == 1 && !userPrefs.multiEvent)) := by
            simp [hm]
          simp only [List.nil_append]
          rw [if_neg (by simpa [hm] using this)]
          rw [ih [i] (by simp [hm])]
          simp [hm]
        · rcases List.length_eq_one.mp h1 with ⟨a, ha⟩
          subst ha
          have hcond : (([a] : List Event) ++ [i]).length == 2 ||
              ((([a] : List Event) ++ [i]).length == 1 && !userPrefs.multiEvent) := by
            simp
          rw [if_pos (by simpa using hcond)]
          simp
    · simp only [hadm, if_false, List.filter_cons]
      rw [ih acc hlen]
      simp [hadm]

/-- C2 counterexample: with a working-location filter configured and no
matching active work site, the selector admits nothing, even though the lone
event is not all-day, not excluded, and has an acceptable response — so
admission is not governed by those three conditions alone. -/
theorem C2_nextEvent_counterexample :
    nextEvent
        [⟨"b", "B", "3", "", "", "default", [⟨true, "accepted"⟩]⟩] []
        ⟨[], [], "notRejected", false, [⟨WorkSiteType.home, ""⟩]⟩ = [] ∧
      eventAdmissible ⟨[], [], "notRejected", false, [⟨WorkSiteType.home, ""⟩]⟩
        ⟨"b", "B", "3", "", "", "default", [⟨true, "accepted"⟩]⟩ = true := by
  constructor <;> rfl

/-- C2 amended: when no working-location filter is configured, or some active
work site matches it (otherwise the selector returns nothing), the selector
returns exactly the first `k` events, in list order, that are not all-day,
not excluded, and have an acceptable response, where `k` is 2 when
`multiEvent` and 1 otherwise; the result never exceeds those bounds. -/
theorem C2_nextEvent_amended (items : List Event) (locations : List WorkSite)
    (userPrefs : UserPrefs) :
    (userPrefs.workingLocations ≠ [] →
      (∀ p ∈ userPrefs.workingLocations, p ∉ locations) →
      nextEvent items locations userPrefs = []) ∧
    ((userPrefs.workingLocations = [] ∨
        ∃ p ∈ userPrefs.workingLocations, p ∈ locations) →
      nextEvent items locations userPrefs =
        (items.filter (eventAdmissible userPrefs)).take
          (if userPrefs.multiEvent then 2 else 1)) ∧
    (nextEvent items locations userPrefs).length ≤ 2 ∧
    (userPrefs.multiEvent = false →
      (nextEvent items locations userPrefs).length ≤ 1) := by
  have hloop : nextEventLoop userPrefs items [] =
      (items.filter (eventAdmissible userPrefs)).take
        (if userPrefs.multiEvent then 2 else 1) := by
    have h := nextEventLoop_eq userPrefs items []
    cases hm : userPrefs.multiEvent <;> simpa [hm] using h (by simp [hm])
  refine ⟨?_, ?_, ?_, ?_⟩
  · intro hne hnomatch
    rw [nextEvent, if_pos]
    simp only [Bool.and_eq_true, Bool.not_eq_true', List.any_eq_false, decide_eq_true_eq]
    refine ⟨by simpa using List.length_pos.mpr hne, fun p hp => by simpa using hnomatch p hp⟩
  · intro hgate
    rcases hgate with h | ⟨p, hp, hpl⟩
    · rw [nextEvent, if_neg (by simp [h]), hloop]
    · rw [nextEvent, if_neg ?_, hloop]
      simp only [Bool.and_eq_true, Bool.not_eq_true', List.any_eq_false, not_and,
        decide_eq_true_eq]
      intro _ hall
      have := hall p hp
      simp at this
      exact this hpl
  · rw [nextEvent]
    split
    · simp
    · rw [hloop]
      calc ((items.filter (eventAdmissible userPrefs)).take
          (if userPrefs.multiEvent then 2 else 1)).length
          ≤ (if userPrefs.multiEvent then 2 else 1) := List.length_take_le _ _
        _ ≤ 2 := by split <;> omega
  · intro hm
    rw [nextEvent]
    split
    · simp
    · rw [hloop, hm]
      simpa using List.length_take_le 1 (items.filter (eventAdmissible userPrefs))

/-- Closed witness for C2 amended, the spec's own example: events
A (excluded title), B (accepted, +3 min), C (declined, +8 min) with policy
`notRejected` and `multiEvent = false` select exactly `[B]`. -/
theorem C2_nextEvent_amended_witness :
    nextEvent
        [⟨"a", "A", "3", "", "", "default", [⟨true, "accepted"⟩]⟩,
         ⟨"b", "B", "3", "", "", "default", [⟨true, "accepted"⟩]⟩,
         ⟨"c", "C", "8", "", "", "default", [⟨true, "declined"⟩]⟩] []
        ⟨["A"], [], "notRejected", false, []⟩ =
      [⟨"b", "B", "3", "", "", "default", [⟨true, "accepted"⟩]⟩] := by
  rw [(C2_nextEvent_amended _ _ _).2.1 (Or.inl rfl)]
  rfl

/-- Two admitted events whose starts both parse fold to a single
`combineStep` of their band states. -/
theorem blinkStateForEvent_two (parse : String → Option ℚ) (now : ℚ)
    (e1 e2 : Event) (priority : Int) (t1 t2 : ℚ)
    (h1 : parse e1.start = some t1) (h2 : parse e2.start = some t2) :
    blinkStateForEvent parse now [e1, e2] priority =
      combineStep (blinkStateForDelta (t1 - now)) (blinkStateForDelta (t2 - now))
        priority := by
  simp [blinkStateForEvent, blinkStateForEventAux, h1, h2]

/-- Combining with Black skips the combination, leaving only the
priority-swap test applied to the first state. -/
theorem combineStep_black (s : CalendarState) (priority : Int) :
    combineStep s Black priority =
      if (priority = 1 ∧ s.primaryFlash = 0 ∧ s.secondaryFlash > 0) ∨
          (priority = 2 ∧ s.primaryFlash > 0 ∧ s.secondaryFlash = 0)
      then SwapState s else s := by
  rw [combineStep]
  simp

/-- C3 counterexample: with `priorityFlashSide = 2`, a first event 3 minutes
out (Red Flash) and a second event 60 minutes out (mapped to Black), the
combination step does not leave the first event's state unchanged: the
priority-swap still fires and side-swaps the single-event state. -/
theorem C3_secondBlack_counterexample :
    blinkStateForDelta ((60 : ℚ) - 0) = Black ∧
      blinkStateForEvent toyParse 0
          [⟨"e1", "E1", "3", "", "", "default", []⟩,
           ⟨"e2", "E2", "60", "", "", "default", []⟩] 2 =
        SwapState RedFlash ∧
      SwapState RedFlash ≠ blinkStateForDelta ((3 : ℚ) - 0) := by
  have h60 : blinkStateForDelta ((60 : ℚ) - 0) = Black := by
    norm_num [blinkStateForDelta]
  have h3 : blinkStateForDelta ((3 : ℚ) - 0) = RedFlash := by
    norm_num [blinkStateForDelta]
  refine ⟨h60, ?_, ?_⟩
  · rw [blinkStateForEvent_two toyParse 0
      ⟨"e1", "E1", "3", "", "", "default", []⟩
      ⟨"e2", "E2", "60", "", "", "default", []⟩ 2 3 60 rfl rfl, h60, h3,
      combineStep_black]
    rw [if_pos (Or.inr ⟨rfl, by decide, by decide⟩)]
  · rw [h3]
    decide

/-- C3 amended: when the second admitted event maps to Black, the combination
itself is skipped, and the display equals the first event's mapped state
unless the priority-swap condition fires on that single-event state (the
designated side solid while the other side flashes), in which case the
display is its side-swapped form; in particular, with no designated priority
side (0) the display is exactly the first event's mapped state. -/
theorem C3_secondBlack_amended (parse : String → Option ℚ) (now : ℚ)
    (e1 e2 : Event) (priority : Int) (t1 t2 : ℚ)
    (h1 : parse e1.start = some t1) (h2 : parse e2.start = some t2)
    (hb : blinkStateForDelta (t2 - now) = Black) :
    blinkStateForEvent parse now [e1, e2] priority =
      (if (priority = 1 ∧ (blinkStateForDelta (t1 - now)).primaryFlash = 0 ∧
            (blinkStateForDelta (t1 - now)).secondaryFlash > 0) ∨
          (priority = 2 ∧ (blinkStateForDelta (t1 - now)).primaryFlash > 0 ∧
            (blinkStateForDelta (t1 - now)).secondaryFlash = 0)
        then SwapState (blinkStateForDelta (t1 - now))
        else blinkStateForDelta (t1 - now)) ∧
    (priority = 0 →
      blinkStateForEvent parse now [e1, e2] priority =
        blinkStateForDelta (t1 - now)) := by
  have hmain := blinkStateForEvent_two parse now e1 e2 priority t1 t2 h1 h2
  rw [hb, combineStep_black] at hmain
  refine ⟨hmain, ?_⟩
  intro hp
  subst hp
  rw [hmain, if_neg]
  rintro (⟨h, -⟩ | ⟨h, -⟩) <;> exact absurd h (by decide)

/-- Closed witness for C3 amended: first event 3 minutes out, second 60
minutes out (Black), no priority side: the display is Red Flash, the first
event's state, unchanged. -/
theorem C3_secondBlack_amended_witness :
    blinkStateForEvent toyParse 0
        [⟨"e1", "E1", "3", "", "", "default", []⟩,
         ⟨"e2", "E2", "60", "", "", "default", []⟩] 0 = RedFlash := by
  rw [(C3_secondBlack_amended toyParse 0
    ⟨"e1", "E1", "3", "", "", "default", []⟩
    ⟨"e2", "E2", "60", "", "", "default", []⟩ 0 3 60 rfl rfl
    (by norm_num [blinkStateForDelta])).2 rfl]
  norm_num [blinkStateForDelta]

/-- C4: for a genuine two-event combination (second state not Black) and a
designated priority side 1 or 2, the combined state is side-swapped exactly
when one side's flash period is nonzero, the other's is zero, and the
designated side is the non-flashing one; and both the combined state and its
swapped form have `alternate = false`. -/
theorem C4_priority_swap (s1 s2 : CalendarState) (priority : Int)
    (hp : priority = 1 ∨ priority = 2) (hs2 : s2 ≠ Black) :
    combineStep s1 s2 priority =
      (if (priority = 1 ∧ (CombineStates s1 s2).primaryFlash = 0 ∧
            (CombineStates s1 s2).secondaryFlash ≠ 0) ∨
          (priority = 2 ∧ (CombineStates s1 s2).primaryFlash ≠ 0 ∧
            (CombineStates s1 s2).secondaryFlash = 0)
        then SwapState (CombineStates s1 s2)
        else CombineStates s1 s2) ∧
    (CombineStates s1 s2).alternate = false ∧
    (SwapState (CombineStates s1 s2)).alternate = false := by
  refine ⟨?_, rfl, rfl⟩
  rw [combineStep]
  simp only [if_pos hs2]
  exact if_congr (by simp [Nat.pos_iff_ne_zero]) rfl rfl

/-- Closed witness for C4: combining Red Flash (3 minutes out) with solid Red
(8 minutes out) under priority side 2 swaps the sides, since only side 1 is
flashing while side 2 is the designated one. -/
theorem C4_priority_swap_witness :
    combineStep RedFlash Red 2 = SwapState (CombineStates RedFlash Red) := by
  rw [(C4_priority_swap RedFlash Red 2 (Or.inr rfl) (by decide)).1]
  decide

/-- The pattern runner adopts the requested state as current in every branch
of the new-request arm. -/
theorem runnerHandleRequest_current (err1 err2 : Bool) (s : RunnerState)
    (newState : CalendarState) :
    (runnerHandleRequest err1 err2 s newState).1.current = newState := by
  rw [runnerHandleRequest]
  split
  · split <;> rfl
  · next h =>
    push_neg at h
    exact h.1.symm

/-- A request equal to the current state with the controller not failing is a
no-op: no write, no state change, no timer change. -/
theorem runnerHandleRequest_noop (err1 err2 : Bool) (s : RunnerState)
    (hf : s.failing = false) :
    runnerHandleRequest err1 err2 s s.current = (s, []) := by
  rw [runnerHandleRequest, if_neg]
  push_neg
  exact ⟨rfl, by simp [hf]⟩

/-- C5: a display-state request equal to the runner's current state while the
controller is not failing performs no hardware write and leaves the whole
runner state — including the timer — untouched; a request that differs, or
arrives while failing, is adopted as current; and two identical requests in a
row produce writes only on the first (provided the first left the controller
non-failing). -/
theorem C5_runner_noop (s : RunnerState) (n : CalendarState)
    (e1 e2 e3 e4 : Bool) :
    (s.failing = false → runnerHandleRequest e1 e2 s s.current = (s, [])) ∧
    ((n ≠ s.current ∨ s.failing = true) →
      (runnerHandleRequest e1 e2 s n).1.current = n) ∧
    (s.failing = false →
      ((runnerHandleRequest e1 e2 s n).1).failing = false →
      runnerHandleRequest e3 e4 (runnerHandleRequest e1 e2 s n).1 n =
        ((runnerHandleRequest e1 e2 s n).1, [])) := by
  refine ⟨fun hf => runnerHandleRequest_noop e1 e2 s hf, ?_, ?_⟩
  · intro _
    exact runnerHandleRequest_current e1 e2 s n
  · intro _ h1f
    have hcur := runnerHandleRequest_current e1 e2 s n
    calc runnerHandleRequest e3 e4 (runnerHandleRequest e1 e2 s n).1 n
        = runnerHandleRequest e3 e4 (runnerHandleRequest e1 e2 s n).1
            (runnerHandleRequest e1 e2 s n).1.current := by rw [hcur]
      _ = ((runnerHandleRequest e1 e2 s n).1, []) :=
          runnerHandleRequest_noop e3 e4 _ h1f

/-- Closed witness for C5: requesting Black while Black is current and the
controller is healthy changes nothing and writes nothing. -/
theorem C5_runner_noop_witness :
    runnerHandleRequest true true ⟨Black, false, false, 0, false⟩ Black =
      (⟨Black, false, false, 0, false⟩, []) :=
  (C5_runner_noop ⟨Black, false, false, 0, false⟩ Green true true true true).1 rfl

/-- A reinitialization that returns no error installed a fresh handle and
reset the counter. -/
theorem reinit_ok_of_success (openOk : Bool) (b b' : Blinker)
    (h : reinit openOk b = .ok (b', false)) :
    b' = { b with deviceOpen := true, failures := 0 } := by
  rw [reinit] at h
  split_ifs at h <;> simp_all

/-- A reinitialization either succeeds with a fresh handle and a zero counter
or fails with a nil handle and an incremented counter. -/
theorem reinit_ok_cases (openOk e : Bool) (b b' : Blinker)
    (h : reinit openOk b = .ok (b', e)) :
    (e = false ∧ b' = { b with deviceOpen := true, failures := 0 }) ∨
      (e = true ∧ b' = { b with deviceOpen := false, failures := b.failures + 1 }) := by
  rw [reinit] at h
  split_ifs at h <;> simp_all

/-- The write-and-retry tail never dereferences a nil handle when the device
is open. -/
theorem setStateWrite_ne_none (w1 o2 w2 : Bool) (b : Blinker)
    (hopen : b.deviceOpen = true) : setStateWrite w1 o2 w2 b ≠ none := by
  rw [setStateWrite]
  have hdw : devWrite b w1 = some w1 := by rw [devWrite, if_pos hopen]
  cases w1 with
  | true => simp [hdw]
  | false =>
    cases hre : reinit o2 b with
    | error u => cases u; simp [hdw, hre]
    | ok p =>
      obtain ⟨b2, e⟩ := p
      cases e with
      | true => simp [hdw, hre]
      | false =>
        have hb2 := reinit_ok_of_success o2 b b2 hre
        have hdw2 : devWrite b2 w2 = some w2 := by
          rw [devWrite, if_pos (by rw [hb2])]
        simp [hdw, hre, hdw2]

/-- A write-and-retry tail that returns without error leaves the failure
counter at zero. -/
theorem setStateWrite_success (w1 o2 w2 : Bool) (b b2 : Blinker)
    (h : setStateWrite w1 o2 w2 b = some (.ok (b2, false))) : b2.failures = 0 := by
  rw [setStateWrite] at h
  cases hdw : devWrite b w1 with
  | none => simp [hdw] at h
  | some w =>
    cases w with
    | true =>
      simp only [hdw, Option.some.injEq, Except.ok.injEq, Prod.mk.injEq] at h
      rw [← h.1]
    | false =>
      cases hre : reinit o2 b with
      | error u => cases u; simp [hdw, hre] at h
      | ok p =>
        obtain ⟨b', e⟩ := p
        cases e with
        | true => simp [hdw, hre] at h
        | false =>
          have hb' := reinit_ok_of_success o2 b b' hre
          cases hdw2 : devWrite b' w2 with
          | none => simp [hdw, hre, hdw2] at h
          | some ok2 =>
            simp only [hdw, hre, hdw2, Option.some.injEq, Except.ok.injEq,
              Prod.mk.injEq] at h
            rw [← h.1, hb']

/-- The write-and-retry tail preserves the controller invariant. -/
theorem setStateWrite_invariant (w1 o2 w2 e : Bool) (b b2 : Blinker)
    (hopen : b.deviceOpen = true)
    (h : setStateWrite w1 o2 w2 b = some (.ok (b2, e))) : deviceInvariant b2 := by
  rw [setStateWrite] at h
  have hdw : devWrite b w1 = some w1 := by rw [devWrite, if_pos hopen]
  cases w1 with
  | true =>
    simp only [hdw, Option.some.injEq, Except.ok.injEq, Prod.mk.injEq] at h
    rw [← h.1]
    intro _
    exact hopen
  | false =>
    cases hre : reinit o2 b with
    | error u => cases u; simp [hdw, hre] at h
    | ok p =>
      obtain ⟨b', e'⟩ := p
      cases e' with
      | true =>
        simp only [hdw, hre, Option.some.injEq, Except.ok.injEq, Prod.mk.injEq] at h
        rw [← h.1]
        rcases reinit_ok_cases o2 true b b' hre with ⟨hc, -⟩ | ⟨-, hb'⟩
        · exact absurd hc (by simp)
        · intro hz
          rw [hb'] at hz
          simp at hz
      | false =>
        have hb' := reinit_ok_of_success o2 b b' hre
        have hdw2 : devWrite b' w2 = some w2 := by
          rw [devWrite, if_pos (by rw [hb'])]
        simp only [hdw, hre, hdw2, Option.some.injEq, Except.ok.injEq,
          Prod.mk.injEq] at h
        rw [← h.1, hb']
        intro _
        rfl

/-- Unfolding one step of a failed-reinitialization run. -/
theorem iterateReinitFail_succ (k : Nat) (b : Blinker) :
    iterateReinitFail (k + 1) b =
      match reinit false b with
      | .error () => .error ()
      | .ok p => iterateReinitFail k p.1 := by
  rw [iterateReinitFail]
  cases reinit false b with
  | error u => cases u; rfl
  | ok p => obtain ⟨b', e⟩ := p; rfl

/-- A single failed-reinitialization step. -/
theorem iterateReinitFail_one (b : Blinker) :
    iterateReinitFail 1 b =
      match reinit false b with
      | .error () => .error ()
      | .ok p => .ok p.1 := by
  have h := iterateReinitFail_succ 0 b
  rw [show (0 : Nat) + 1 = 1 from rfl] at h
  rw [h]
  cases reinit false b with
  | error u => cases u; rfl
  | ok p => rfl

/-- Splitting a run of failed reinitializations. -/
theorem iterateReinitFail_add (j k : Nat) (b : Blinker) :
    iterateReinitFail (j + k) b =
      match iterateReinitFail j b with
      | .error () => .error ()
      | .ok b' => iterateReinitFail k b' := by
  induction j generalizing b with
  | zero => rw [Nat.zero_add]; rfl
  | succ m ih =>
    have hadd : m + 1 + k = (m + k) + 1 := by omega
    rw [hadd, iterateReinitFail_succ (m + k) b, iterateReinitFail_succ m b]
    cases hre : reinit false b with
    | error u => cases u; rfl
    | ok p => exact ih p.1

/-- A run of `k ≥ 1` failed opens from counter value zero leaves the counter
at exactly `k`, as long as `k` stays within the ceiling. -/
theorem iterateReinitFail_spec (n : Nat) :
    ∀ (k : Nat) (b : Blinker), b.maxFailures = n → b.failures + k ≤ n → 1 ≤ k →
      iterateReinitFail k b = .ok ⟨false, b.failures + k, n⟩ := by
  intro k
  induction k with
  | zero => intro b _ _ h1; exact absurd h1 (by omega)
  | succ m ih =>
    intro b hmax hle _
    have hre : reinit false b =
        .ok ({ b with deviceOpen := false, failures := b.failures + 1 }, true) := by
      rw [reinit, if_neg (by simp), if_neg (by omega)]
    rw [iterateReinitFail_succ, hre]
    cases m with
    | zero =>
      show (Except.ok { b with deviceOpen := false, failures := b.failures + 1 } :
          Except Unit Blinker) = _
      obtain ⟨d, f, mf⟩ := b
      simp_all
    | succ m' =>
      show iterateReinitFail (m' + 1)
          { b with deviceOpen := false, failures := b.failures + 1 } = _
      rw [ih { b with deviceOpen := false, failures := b.failures + 1 }
        (by simpa using hmax) (by simp; omega) (by omega)]
      simp only [Except.ok.injEq, Blinker.mk.injEq]
      exact ⟨trivial, by omega, trivial⟩

/-- C6: starting from a zero counter with ceiling `n`, each failed device
open increments the counter; `k ≤ n` consecutive failures leave the process
alive with the counter at `k`, while the `(n+1)`-th consecutive failure is
fatal; any successful open resets the counter to zero (so `n-1` failures
followed by a success leave it at zero), and any `setState` call that
returns without error leaves the counter at zero. -/
theorem C6_failure_ceiling (n : Nat) (blinker : Blinker)
    (h0 : blinker.failures = 0) (hmax : blinker.maxFailures = n) :
    (∀ k, 1 ≤ k → k ≤ n → iterateReinitFail k blinker = .ok ⟨false, k, n⟩) ∧
    iterateReinitFail (n + 1) blinker = .error () ∧
    (∀ b : Blinker, reinit true b =
      .ok ({ b with deviceOpen := true, failures := 0 }, false)) ∧
    (∀ (o1 w1 o2 w2 : Bool) (b b2 : Blinker),
      setState o1 w1 o2 w2 b = some (.ok (b2, false)) → b2.failures = 0) := by
  refine ⟨?_, ?_, ?_, ?_⟩
  · intro k h1 hk
    have hs := iterateReinitFail_spec n k blinker hmax (by omega) h1
    rw [h0] at hs
    simpa using hs
  · cases n with
    | zero =>
      have hfatal : reinit false blinker = .error () := by
        rw [reinit, if_neg (by simp), if_pos (by omega)]
      rw [iterateReinitFail_succ, hfatal]
    | succ m =>
      rw [iterateReinitFail_add (m + 1) 1 blinker]
      have hrun := iterateReinitFail_spec (m + 1) (m + 1) blinker hmax
        (by omega) (by omega)
      rw [h0] at hrun
      simp only [Nat.zero_add] at hrun
      rw [hrun]
      show iterateReinitFail 1 (⟨false, m + 1, m + 1⟩ : Blinker) = .error ()
      have hfatal : reinit false (⟨false, m + 1, m + 1⟩ : Blinker) =
          .error () := by
        rw [reinit, if_neg (by simp), if_pos (by show m + 1 < m + 1 + 1; omega)]
      rw [iterateReinitFail_one, hfatal]
  · intro b
    rw [reinit, if_pos rfl]
  · intro o1 w1 o2 w2 b b2 h
    rw [setState] at h
    split_ifs at h
    · cases hre : reinit o1 b with
      | error u => cases u; rw [hre] at h; simp at h
      | ok p =>
        obtain ⟨b1, e1⟩ := p
        rw [hre] at h
        cases e1 with
        | true => simp at h
        | false => exact setStateWrite_success w1 o2 w2 b1 b2 h
    · exact setStateWrite_success w1 o2 w2 b b2 h

/-- Closed witness for C6 with ceiling 3: two consecutive failed opens leave
the counter at 2 and the process alive. -/
theorem C6_failure_ceiling_witness :
    iterateReinitFail 2 ⟨true, 0, 3⟩ = .ok ⟨false, 2, 3⟩ :=
  (C6_failure_ceiling 3 ⟨true, 0, 3⟩ rfl rfl).1 2 (by omega) (by omega)

/-- C10: the controller maintains the invariant "zero failures implies an
open device handle": it is established by `NewBlinkerState`, preserved by
`reinit` and `setState`, and under it `setState` never dereferences a
nil device handle. -/
theorem C10_device_invariant :
    (∀ (maxF : Nat) (openOk : Bool) (b : Blinker),
      NewBlinkerState maxF openOk = .ok b → deviceInvariant b) ∧
    (∀ (openOk e : Bool) (b b' : Blinker),
      deviceInvariant b → reinit openOk b = .ok (b', e) → deviceInvariant b') ∧
    (∀ (o1 w1 o2 w2 : Bool) (b : Blinker),
      deviceInvariant b → setState o1 w1 o2 w2 b ≠ none) ∧
    (∀ (o1 w1 o2 w2 e : Bool) (b b' : Blinker),
      deviceInvariant b → setState o1 w1 o2 w2 b = some (.ok (b', e)) →
      deviceInvariant b') := by
  have hre : ∀ (openOk e : Bool) (b b' : Blinker),
      reinit openOk b = .ok (b', e) → deviceInvariant b' := by
    intro openOk e b b' h
    rcases reinit_ok_cases openOk e b b' h with ⟨-, hb'⟩ | ⟨-, hb'⟩
    · intro _; rw [hb']
    · intro hz; rw [hb'] at hz; simp at hz
  refine ⟨?_, fun o e b b' _ h => hre o e b b' h, ?_, ?_⟩
  · intro maxF openOk b h
    rw [NewBlinkerState] at h
    cases hr : reinit openOk ⟨false, 0, maxF⟩ with
    | error u => cases u; rw [hr] at h; simp [Except.map] at h
    | ok p =>
      obtain ⟨b0, e0⟩ := p
      rw [hr] at h
      simp only [Except.map, Except.ok.injEq] at h
      rw [← h]
      exact hre openOk e0 _ b0 hr
  · intro o1 w1 o2 w2 b hinv
    rw [setState]
    split_ifs with hf
    · cases hr : reinit o1 b with
      | error u => cases u; simp
      | ok p =>
        obtain ⟨b1, e1⟩ := p
        cases e1 with
        | true => simp
        | false =>
          have hb1 := reinit_ok_of_success o1 b b1 hr
          exact setStateWrite_ne_none w1 o2 w2 b1 (by rw [hb1])
    · have hopen : b.deviceOpen = true := hinv (by omega)
      exact setStateWrite_ne_none w1 o2 w2 b hopen
  · intro o1 w1 o2 w2 e b b' hinv h
    rw [setState] at h
    split_ifs at h with hf
    · cases hr : reinit o1 b with
      | error u => cases u; rw [hr] at h; simp at h
      | ok p =>
        obtain ⟨b1, e1⟩ := p
        rw [hr] at h
        cases e1 with
        | true =>
          simp only [Option.some.injEq, Except.ok.injEq, Prod.mk.injEq] at h
          rw [← h.1]
          exact hre o1 true b b1 hr
        | false =>
          have hb1 := reinit_ok_of_success o1 b b1 hr
          exact setStateWrite_invariant w1 o2 w2 e b1 b' (by rw [hb1]) h
    · have hopen : b.deviceOpen = true := hinv (by omega)
      exact setStateWrite_invariant w1 o2 w2 e b b' hopen h

/-- Closed witness for C10: a healthy controller (open handle, zero
failures) satisfies the invariant and its `setState` never hits a nil
dereference. -/
theorem C10_device_invariant_witness :
    deviceInvariant ⟨true, 0, 3⟩ ∧
      setState true true true true ⟨true, 0, 3⟩ ≠ none :=
  ⟨fun _ => rfl,
    C10_device_invariant.2.2.1 true true true true ⟨true, 0, 3⟩ (fun _ => rfl)⟩

/-- Stable insertion permutes the element onto the list. -/
theorem insertSorted_perm (parse : String → Option ℚ) (e : Event) (l : List Event) :
    (insertSorted parse e l).Perm (e :: l) := by
  induction l with
  | nil => exact List.Perm.refl _
  | cons x xs ih =>
    rw [insertSorted]
    split_ifs
    · exact List.Perm.refl _
    · exact (ih.cons x).trans (List.Perm.swap e x xs)

/-- The stable sort permutes its input. -/
theorem sortByStart_perm (parse : String → Option ℚ) (l : List Event) :
    (sortByStart parse l).Perm l := by
  induction l with
  | nil => exact List.Perm.refl _
  | cons e es ih => exact (insertSorted_perm parse e _).trans (ih.cons e)

/-- Stable insertion preserves sortedness by the start key. -/
theorem pairwise_insertSorted (parse : String → Option ℚ) (e : Event)
    (l : List Event)
    (h : l.Pairwise (fun a b => startKey parse a ≤ startKey parse b)) :
    (insertSorted parse e l).Pairwise
      (fun a b => startKey parse a ≤ startKey parse b) := by
  induction l with
  | nil => simp [insertSorted]
  | cons x xs ih =>
    rw [insertSorted]
    rcases List.pairwise_cons.mp h with ⟨hx, hxs⟩
    split_ifs with hle
    · refine List.pairwise_cons.mpr ⟨?_, h⟩
      intro b hb
      rcases List.mem_cons.mp hb with rfl | hb'
      · exact hle
      · exact le_trans hle (hx b hb')
    · refine List.pairwise_cons.mpr ⟨?_, ih hxs⟩
      intro b hb
      rcases List.mem_cons.mp ((insertSorted_perm parse e xs).mem_iff.mp hb) with
        rfl | hb'
      · exact (not_le.mp hle).le
      · exact hx b hb'

/-- The stable sort produces a list sorted ascending by the start key. -/
theorem sortByStart_pairwise (parse : String → Option ℚ) (l : List Event) :
    (sortByStart parse l).Pairwise
      (fun a b => startKey parse a ≤ startKey parse b) := by
  induction l with
  | nil => simp [sortByStart]
  | cons e es ih => exact pairwise_insertSorted parse e _ ih

/-- Filtering one key class through a stable insertion: the inserted element
goes first in its class, everything else is untouched. -/
theorem filter_insertSorted (parse : String → Option ℚ) (q : ℚ) (e : Event)
    (l : List Event) :
    (insertSorted parse e l).filter (fun x => decide (startKey parse x = q)) =
      if startKey parse e = q
      then e :: l.filter (fun x => decide (startKey parse x = q))
      else l.filter (fun x => decide (startKey parse x = q)) := by
  induction l with
  | nil =>
    rw [insertSorted]
    by_cases heq : startKey parse e = q
    · simp [List.filter, heq]
    · simp [List.filter, heq]
  | cons x xs ih =>
    rw [insertSorted]
    by_cases hle : startKey parse e ≤ startKey parse x
    · rw [if_pos hle]
      simp only [List.filter_cons, decide_eq_true_eq]
    · rw [if_neg hle, List.filter_cons, ih]
      simp only [decide_eq_true_eq]
      by_cases heq : startKey parse e = q
      · have hxq : ¬(startKey parse x = q) := fun hxq =>
          hle (le_of_eq (heq.trans hxq.symm))
        simp only [if_pos heq, if_neg hxq, List.filter_cons, decide_eq_true_eq]
      · simp only [if_neg heq, List.filter_cons, decide_eq_true_eq]

/-- Stability of the stable sort, expressed per key class: each class of
equal start keys is exactly the input's class, in the input's order. -/
theorem sortByStart_filter_key (parse : String → Option ℚ) (q : ℚ)
    (l : List Event) :
    (sortByStart parse l).filter (fun x => decide (startKey parse x = q)) =
      l.filter (fun x => decide (startKey parse x = q)) := by
  induction l with
  | nil => rfl
  | cons e es ih =>
    rw [sortByStart, filter_insertSorted, ih]
    split_ifs with heq
    · rw [List.filter_cons, if_pos (by simpa using heq)]
    · rw [List.filter_cons, if_neg (by simpa using heq)]

/-- The merge filter's walk is plain de-duplication by id, first occurrence
kept, over the events with a nonempty start date-time. -/
theorem mergeDedup_eq_dedupById (l : List Event) :
    ∀ seen, mergeDedup l seen =
      dedupById (l.filter (fun e => decide (e.start ≠ ""))) seen := by
  induction l with
  | nil => intro seen; rfl
  | cons e rest ih =>
    intro seen
    rw [mergeDedup]
    by_cases hs : e.start = ""
    · rw [List.filter_cons_of_neg (by simpa using hs)]
      split_ifs with hid
      · exact ih seen
      · exact ih seen
    · rw [List.filter_cons_of_pos (by simpa using hs), dedupById]
      split_ifs with hid
      · exact ih seen
      · rw [ih (e.id :: seen)]

/-- De-duplication by id yields pairwise distinct ids, none of them in the
seen set. -/
theorem dedupById_nodup_ids (l : List Event) :
    ∀ seen, ((dedupById l seen).map (fun e => e.id)).Nodup ∧
      ∀ e ∈ dedupById l seen, e.id ∉ seen := by
  induction l with
  | nil => intro seen; exact ⟨List.nodup_nil, by simp [dedupById]⟩
  | cons e rest ih =>
    intro seen
    rw [dedupById]
    split_ifs with hid
    · exact ih seen
    · obtain ⟨hnd, hseen⟩ := ih (e.id :: seen)
      constructor
      · rw [List.map_cons, List.nodup_cons]
        refine ⟨?_, hnd⟩
        intro hmem
        rcases List.mem_map.mp hmem with ⟨x, hx, hxid⟩
        exact hseen x hx (by rw [hxid]; exact List.mem_cons_self _ _)
      · intro x hx
        rcases List.mem_cons.mp hx with rfl | hx'
        · exact hid
        · intro hxs
          exact hseen x hx' (List.mem_cons_of_mem _ hxs)

/-- De-duplication only keeps elements of its input. -/
theorem dedupById_subset (l : List Event) :
    ∀ seen, ∀ e ∈ dedupById l seen, e ∈ l := by
  induction l with
  | nil => intro seen e he; simpa [dedupById] using he
  | cons x rest ih =>
    intro seen e he
    rw [dedupById] at he
    split_ifs at he with hid
    · exact List.mem_cons_of_mem _ (ih seen e he)
    · rcases List.mem_cons.mp he with rfl | he'
      · exact List.mem_cons_self _ _
      · exact List.mem_cons_of_mem _ (ih (x.id :: seen) e he')

/-- C7 counterexample: a timed out-of-office pseudo-event survives the
multi-calendar merge filter untouched — the merge strips only all-day events
(and duplicates), not out-of-office or working-location pseudo-events. -/
theorem C7_merge_counterexample :
    mergeFilter toyParse
        [⟨"o", "OOO", "3", "110", "", "outOfOffice", []⟩] =
      .ok [⟨"o", "OOO", "3", "110", "", "outOfOffice", []⟩] ∧
    (⟨"o", "OOO", "3", "110", "", "outOfOffice", []⟩ : Event).eventType =
      "outOfOffice" ∧
    (⟨"o", "OOO", "3", "110", "", "outOfOffice", []⟩ : Event).start ≠ "" :=
  ⟨rfl, rfl, by decide⟩

/-- C7 amended: when every surviving event's start parses, the merge yields
(without a fatal error) the pool de-duplicated by event id with the first
occurrence kept among the non-all-day events, stripped of all-day events
only, and stably re-sorted ascending by parsed start time: the result is
sorted, each class of equal start keys keeps the input order, the surviving
ids are pairwise distinct, and every survivor has a nonempty start.  Timed
working-location and out-of-office pseudo-events are not stripped. -/
theorem C7_merge_amended (parse : String → Option ℚ) (events : List Event)
    (hparse : (mergeDedup events []).all (fun e => (parse e.start).isSome) = true) :
    mergeFilter parse events = .ok (sortByStart parse (mergeDedup events [])) ∧
    mergeDedup events [] =
      dedupById (events.filter (fun e => decide (e.start ≠ ""))) [] ∧
    (sortByStart parse (mergeDedup events [])).Perm (mergeDedup events []) ∧
    (sortByStart parse (mergeDedup events [])).Pairwise
      (fun a b => startKey parse a ≤ startKey parse b) ∧
    (∀ q : ℚ, (sortByStart parse (mergeDedup events [])).filter
        (fun x => decide (startKey parse x = q)) =
      (mergeDedup events []).filter (fun x => decide (startKey parse x = q))) ∧
    ((mergeDedup events []).map (fun e => e.id)).Nodup ∧
    (∀ e ∈ mergeDedup events [], e.start ≠ "") := by
  refine ⟨?_, mergeDedup_eq_dedupById events [], sortByStart_perm parse _,
    sortByStart_pairwise parse _, fun q => sortByStart_filter_key parse q _,
    ?_, ?_⟩
  · rw [mergeFilter]
    simp only [hparse, if_true]
  · rw [mergeDedup_eq_dedupById events []]
    exact (dedupById_nodup_ids _ []).1
  · intro e he
    rw [mergeDedup_eq_dedupById events []] at he
    have := dedupById_subset _ [] e he
    simpa using (List.mem_filter.mp this).2

/-- Closed witness for C7 amended at a one-event pool containing a timed
working-location pseudo-event. -/
theorem C7_merge_amended_witness :
    mergeFilter toyParse [⟨"w", "WL", "8", "", "", "workingLocation", []⟩] =
      .ok (sortByStart toyParse
        (mergeDedup [⟨"w", "WL", "8", "", "", "workingLocation", []⟩] [])) :=
  (C7_merge_amended toyParse
    [⟨"w", "WL", "8", "", "", "workingLocation", []⟩] rfl).1

/-- C9 counterexample: an admitted event whose start fails to parse does not
terminate the program: `blinkStateForEvent` merely stops processing and
returns the state computed so far — here, the first event's Red Flash, a
partial result rather than a fatal exit. -/
theorem C9_badtime_counterexample :
    toyParse "nope" = none ∧
      blinkStateForEvent toyParse 0
          [⟨"g", "G", "3", "", "", "default", []⟩,
           ⟨"x", "X", "nope", "", "", "default", []⟩] 0 = RedFlash := by
  refine ⟨rfl, ?_⟩
  have hb : blinkStateForEvent toyParse 0
      [⟨"g", "G", "3", "", "", "default", []⟩,
       ⟨"x", "X", "nope", "", "", "default", []⟩] 0 =
      blinkStateForDelta ((3 : ℚ) - 0) := by
    simp [blinkStateForEvent, blinkStateForEventAux, toyParse]
  rw [hb]
  norm_num [blinkStateForDelta]

/-- C9 amended: a start timestamp that fails to parse on an admitted event
makes `blinkStateForEvent` stop and return the state accumulated so far —
no fatal exit; only the multi-calendar merge treats an unparseable start as
fatal, namely when at least two events survive its duplicate/all-day
filter. -/
theorem C9_badtime_amended (parse : String → Option ℚ) (now : ℚ)
    (priority : Int) :
    (∀ (e : Event) (rest : List Event) (i : Nat) (acc : CalendarState),
      parse e.start = none →
      blinkStateForEventAux parse now priority (e :: rest) i acc = acc) ∧
    (∀ events : List Event,
      2 ≤ (mergeDedup events []).length →
      (∃ e ∈ mergeDedup events [], parse e.start = none) →
      mergeFilter parse events = .error ()) := by
  constructor
  · intro e rest i acc h
    rw [blinkStateForEventAux, h]
  · rintro events hlen ⟨e, he, hnone⟩
    simp only [mergeFilter]
    rw [if_neg ?hc, if_pos hlen]
    case hc =>
      intro hall
      rw [List.all_eq_true] at hall
      have hx := hall e he
      rw [hnone] at hx
      simp at hx

/-- Closed witness for C9 amended: the loop keeps its accumulated Red Flash
on a bad second event, and the merge of a good and a bad timed event is
fatal. -/
theorem C9_badtime_amended_witness :
    blinkStateForEventAux toyParse 0 0
        [⟨"x", "X", "nope", "", "", "default", []⟩] 1 RedFlash = RedFlash ∧
      mergeFilter toyParse
          [⟨"a", "A", "3", "", "", "default", []⟩,
           ⟨"x", "X", "nope", "", "", "default", []⟩] = .error () :=
  ⟨(C9_badtime_amended toyParse 0 0).1 _ [] 1 RedFlash rfl,
    (C9_badtime_amended toyParse 0 0).2 _ (by decide)
      ⟨⟨"x", "X", "nope", "", "", "default", []⟩, by decide, rfl⟩⟩

/-- Changing the type tag does not change admissibility. -/
theorem eventAdmissible_setEventType (userPrefs : UserPrefs) (t : String)
    (e : Event) :
    eventAdmissible userPrefs (setEventType t e) = eventAdmissible userPrefs e :=
  rfl

/-- The admission loop started empty returns the first admissible events. -/
theorem nextEventLoop_nil (userPrefs : UserPrefs) (items : List Event) :
    nextEventLoop userPrefs items [] =
      (items.filter (eventAdmissible userPrefs)).take
        (if userPrefs.multiEvent then 2 else 1) := by
  have h := nextEventLoop_eq userPrefs items []
  cases hm : userPrefs.multiEvent <;> simpa [hm] using h (by simp [hm])

/-- The selector never consults the event type. -/
theorem nextEvent_map_setEventType (items : List Event)
    (locations : List WorkSite) (userPrefs : UserPrefs) (t : String) :
    nextEvent (items.map (setEventType t)) locations userPrefs =
      (nextEvent items locations userPrefs).map (setEventType t) := by
  rw [nextEvent, nextEvent]
  split_ifs with hgate
  · rfl
  · rw [nextEventLoop_nil, nextEventLoop_nil, List.filter_map]
    have hcomp : (eventAdmissible userPrefs) ∘ (setEventType t) =
        eventAdmissible userPrefs :=
      funext (fun e => eventAdmissible_setEventType userPrefs t e)
    rw [hcomp, ← List.map_take]

/-- The merge's duplicate/all-day walk never consults the event type. -/
theorem mergeDedup_map_setEventType (t : String) (l : List Event) :
    ∀ seen, mergeDedup (l.map (setEventType t)) seen =
      (mergeDedup l seen).map (setEventType t) := by
  induction l with
  | nil => intro seen; rfl
  | cons e rest ih =>
    intro seen
    rw [List.map_cons, mergeDedup, mergeDedup]
    have hid : (setEventType t e).id = e.id := rfl
    have hst : (setEventType t e).start = e.start := rfl
    rw [hid, hst]
    split_ifs with h1 h2
    · exact ih seen
    · exact ih seen
    · rw [List.map_cons, ih (e.id :: seen)]

/-- The start key never depends on the event type. -/
theorem startKey_setEventType (parse : String → Option ℚ) (t : String)
    (e : Event) : startKey parse (setEventType t e) = startKey parse e :=
  rfl

/-- Stable insertion never consults the event type. -/
theorem insertSorted_map_setEventType (parse : String → Option ℚ) (t : String)
    (e : Event) (l : List Event) :
    insertSorted parse (setEventType t e) (l.map (setEventType t)) =
      (insertSorted parse e l).map (setEventType t) := by
  induction l with
  | nil => rfl
  | cons x xs ih =>
    rw [List.map_cons, insertSorted, insertSorted, startKey_setEventType,
      startKey_setEventType]
    split_ifs with h
    · rw [List.map_cons, List.map_cons]
    · rw [List.map_cons, ih]

/-- The stable sort never consults the event type. -/
theorem sortByStart_map_setEventType (parse : String → Option ℚ) (t : String)
    (l : List Event) :
    sortByStart parse (l.map (setEventType t)) =
      (sortByStart parse l).map (setEventType t) := by
  induction l with
  | nil => rfl
  | cons e es ih =>
    rw [List.map_cons, sortByStart, sortByStart, ih,
      insertSorted_map_setEventType]

/-- The multi-calendar merge never consults the event type. -/
theorem mergeFilter_map_setEventType (parse : String → Option ℚ) (t : String)
    (events : List Event) :
    mergeFilter parse (events.map (setEventType t)) =
      (mergeFilter parse events).map (List.map (setEventType t)) := by
  simp only [mergeFilter]
  rw [mergeDedup_map_setEventType, List.all_map, List.length_map]
  have hcomp : ((fun e => (parse e.start).isSome) ∘ (setEventType t)) =
      (fun e : Event => (parse e.start).isSome) := rfl
  rw [hcomp]
  split_ifs with h1 h2
  · rw [sortByStart_map_setEventType]
    rfl
  · rfl
  · rfl

/-- C8 counterexample: a calendar whose pool contains an `outOfOffice` event
fully covering the two-hour window (start at `now = 0`, end at 130 minutes,
covering `now + 120`) is not excluded: the selection still returns the
calendar's events — here even the out-of-office event itself together with a
normal event. -/
theorem C8_ooo_counterexample :
    (⟨"o", "OOO", "0", "130", "", "outOfOffice", []⟩ : Event).eventType =
      "outOfOffice" ∧
    toyParse (Event.start ⟨"o", "OOO", "0", "130", "", "outOfOffice", []⟩) =
      some 0 ∧
    toyParse (Event.endTime ⟨"o", "OOO", "0", "130", "", "outOfOffice", []⟩) =
      some 130 ∧
    (0 : ℚ) ≤ 0 ∧ (0 : ℚ) + 120 ≤ 130 ∧
    fetchEventsSelect toyParse 1
        [⟨"o", "OOO", "0", "130", "", "outOfOffice", []⟩,
         ⟨"b", "B", "8", "", "", "default", []⟩] []
        ⟨[], [], "all", true, []⟩ =
      .ok [⟨"o", "OOO", "0", "130", "", "outOfOffice", []⟩,
           ⟨"b", "B", "8", "", "", "default", []⟩] :=
  ⟨rfl, rfl, rfl, le_refl 0, by norm_num, rfl⟩

/-- C8 amended: the code performs no out-of-office gating at all — the
selection pipeline (merge filter and selector) never consults the event
type, so uniformly rewriting every event's type tag (for instance to or
from `outOfOffice`) changes nothing about which events are selected; a
calendar carrying a covering `outOfOffice` event is therefore processed
exactly like any other. -/
theorem C8_ooo_amended (parse : String → Option ℚ) (numCalendars : Nat)
    (events : List Event) (locations : List WorkSite) (userPrefs : UserPrefs)
    (t : String) :
    fetchEventsSelect parse numCalendars (events.map (setEventType t))
        locations userPrefs =
      (fetchEventsSelect parse numCalendars events locations userPrefs).map
        (List.map (setEventType t)) := by
  rw [fetchEventsSelect, fetchEventsSelect]
  split_ifs with hn
  · rw [mergeFilter_map_setEventType]
    cases mergeFilter parse events with
    | error u => cases u; rfl
    | ok l =>
      show Except.ok (nextEvent (l.map (setEventType t)) locations userPrefs) = _
      rw [nextEvent_map_setEventType]
      rfl
  · show Except.ok (nextEvent (events.map (setEventType t)) locations userPrefs) = _
    rw [nextEvent_map_setEventType]
    rfl

end Calblink
